import Mathlib

/-!
Verification of the ameilisearch asynchronous MeiliSearch client.

This file gives a shallow embedding, in Lean 4, of the parts of the
ameilisearch source that the specification's claims are about:

* the task poller `Index.wait_for_pending_update` (src/ameilisearch/index.py,
  lines 176-215), modelled as an explicit check/sleep loop over an abstract
  stream of status strings, with wall-clock time idealised as advancing by
  exactly `interval_in_ms` per sleep;
* object identity of `Config` / `HttpRequests` / session slots across
  `Client` and spawned `Index` handles (client.py, index.py, _httprequests.py),
  modelled with an explicit allocation counter;
* the batching helpers `Index._batch`, `Index.add_documents_in_batches` and
  `Index.update_documents_in_batches` (index.py, lines 329-362, 491-524,
  1079-1085), with the HTTP layer modelled as a trace of issued calls;
* the idempotency carve-outs `Client.delete_index_if_exists`,
  `Client.get_or_create_index`, `Index.delete_if_exists` and the error
  swallowing in `Client.is_healthy` (client.py, index.py), with the HTTP
  outcome abstracted as an `Except` value;
* body serialisation in `HttpRequests.send_request` (_httprequests.py,
  lines 30-63) including Python truthiness of empty collections, the
  `json.dumps` serialiser, and the persistent per-object header dict;
* the timestamp parser `Index._iso_to_date_time` (index.py, lines 1087-1110),
  including a character-level model of CPython
  `datetime.strptime(s, "%Y-%m-%dT%H:%M:%S.%fZ")`.

Python strings are embedded as `List Char`, machine integers as `Nat`/`Int`,
fallible code as `Option`/`Except`.
-/

namespace Ameilisearch

/-! ## Task poller: Index.wait_for_pending_update (index.py 176-215)

The loop is

    start_time = datetime.now()
    elapsed_time = 0.0
    while elapsed_time < timeout_in_ms:
        get_update = await self.get_update_status(update_id)
        if get_update["status"] != "enqueued" and get_update["status"] != "processing":
            return get_update
        sleep(interval_in_ms / 1000)
        time_delta = datetime.now() - start_time
        elapsed_time = time_delta.seconds * 1000 + time_delta.microseconds / 1000
    raise MeiliSearchTimeoutError(...)

We model the sequence of server answers as `statuses : Nat → String`
(`statuses k` is the status returned by the k-th `get_update_status` call),
and idealise time: status checks are instantaneous and each sleep advances
the wall clock by exactly `interval_in_ms` milliseconds, so the elapsed time
read after the k-th sleep is `k * interval_in_ms`.  The outcome records how
many status checks and how many sleeps were performed. -/

/-- Status test from index.py 205-208: a status is pending when it is
"enqueued" or "processing"; anything else is terminal. -/
def isPending (s : String) : Bool :=
  s == "enqueued" || s == "processing"

/-- The `MeiliSearchTimeoutError` message built at index.py 213-215
(the Python source interpolates inside literal dollar signs:
f-string "timeout of ${t}ms ..." renders as "timeout of $5000ms ..."). -/
def timeoutMessage (timeout_in_ms update_id : Nat) : String :=
  "timeout of $" ++ Nat.repr timeout_in_ms ++
    "ms has exceeded on process $" ++ Nat.repr update_id ++
    " when waiting for pending update to resolve."

/-- Outcome of one run of the poller: either a terminal status returned
(`success`), or a raised `MeiliSearchTimeoutError` (`timedOut`).  Both record
the number of status checks and the number of sleeps performed. -/
inductive PollOutcome where
  | success (status : String) (checks sleeps : Nat)
  | timedOut (message : String) (checks sleeps : Nat)
  deriving DecidableEq, Repr

/-- Number of status checks performed in a poll outcome. -/
def PollOutcome.checksOf : PollOutcome → Nat
  | .success _ c _ => c
  | .timedOut _ c _ => c

/-- Number of sleeps performed in a poll outcome. -/
def PollOutcome.sleepsOf : PollOutcome → Nat
  | .success _ _ s => s
  | .timedOut _ _ s => s

/-- One-to-one model of the while loop of index.py 202-215.  `k` counts the
iterations already completed (equivalently, the sleeps performed so far), so
the elapsed time read before the k-th check is `k * interval`.  The `fuel`
argument only makes the recursion structural; `wait_for_pending_update`
supplies enough fuel for every run with a positive interval. -/
def pollLoop (statuses : Nat → String) (update_id timeout interval : Nat) :
    Nat → Nat → Option PollOutcome
  | 0, _ => none
  | fuel + 1, k =>
    if k * interval < timeout then
      if isPending (statuses k) then
        pollLoop statuses update_id timeout interval fuel (k + 1)
      else
        some (.success (statuses k) (k + 1) k)
    else
      some (.timedOut (timeoutMessage timeout update_id) k k)

/-- Model of `Index.wait_for_pending_update` (index.py 176-215).  The Python
defaults are `timeout_in_ms = 5000`, `interval_in_ms = 50`. -/
def wait_for_pending_update (statuses : Nat → String) (update_id : Nat)
    (timeout_in_ms interval_in_ms : Nat) : Option PollOutcome :=
  pollLoop statuses update_id timeout_in_ms interval_in_ms (timeout_in_ms + 1) 0

/-- Shape of every poll outcome: a success returns after the check that
observed the terminal status and before any further sleep (checks = j + 1,
sleeps = j for some iteration j), and a timeout raises with checks = sleeps =
j where the clock reading `j * interval` has reached the timeout, with the
message of index.py 213-215. -/
theorem pollLoop_shape (statuses : Nat → String) (update_id timeout interval : Nat) :
    ∀ fuel k o, pollLoop statuses update_id timeout interval fuel k = some o →
      (∃ j, k ≤ j ∧ o = .success (statuses j) (j + 1) j ∧ j * interval < timeout ∧
        ¬ isPending (statuses j)) ∨
      (∃ j, k ≤ j ∧ o = .timedOut (timeoutMessage timeout update_id) j j ∧
        timeout ≤ j * interval) := by
  intro fuel
  induction fuel with
  | zero => intro k o h; simp [pollLoop] at h
  | succ fuel ih =>
    intro k o h
    rw [pollLoop] at h
    by_cases hkt : k * interval < timeout
    · simp only [hkt, if_true] at h
      by_cases hp : isPending (statuses k)
      · simp only [hp, if_true] at h
        rcases ih (k + 1) o h with ⟨j, hkj, rest⟩ | ⟨j, hkj, rest⟩
        · exact Or.inl ⟨j, by omega, rest⟩
        · exact Or.inr ⟨j, by omega, rest⟩
      · simp only [hp, if_false] at h
        exact Or.inl ⟨k, le_refl k, by cases h; exact ⟨rfl, hkt, hp⟩⟩
    · simp only [hkt, if_false] at h
      exact Or.inr ⟨k, le_refl k, by cases h; exact ⟨rfl, by omega⟩⟩

/-- With a positive interval the fuel supplied by `wait_for_pending_update`
suffices: the loop always produces an outcome. -/
theorem pollLoop_isSome (statuses : Nat → String) (update_id timeout interval : Nat)
    (hi : 1 ≤ interval) :
    ∀ fuel k, 1 ≤ fuel → timeout < k * interval + fuel →
      (pollLoop statuses update_id timeout interval fuel k).isSome := by
  intro fuel
  induction fuel with
  | zero => intro k h1 _; omega
  | succ fuel ih =>
    intro k _ hlt
    rw [pollLoop]
    by_cases hkt : k * interval < timeout
    · simp only [hkt, if_true]
      by_cases hp : isPending (statuses k)
      · simp only [hp, if_true]
        have hfuel : 1 ≤ fuel := by nlinarith
        exact ih (k + 1) hfuel (by nlinarith)
      · simp [hp]
    · simp [hkt]

/-- `wait_for_pending_update` terminates with an outcome whenever the
interval is positive. -/
theorem wait_terminates (statuses : Nat → String) (update_id timeout interval : Nat)
    (hi : 1 ≤ interval) :
    ∃ o, wait_for_pending_update statuses update_id timeout interval = some o := by
  have h := pollLoop_isSome statuses update_id timeout interval hi (timeout + 1) 0
    (by omega) (by omega)
  rcases ho : pollLoop statuses update_id timeout interval (timeout + 1) 0 with _ | o
  · rw [ho] at h; simp at h
  · exact ⟨o, ho⟩

/-- Every outcome from iteration `k` onwards has performed at least `k`
checks (needed to show the first iteration's check is counted). -/
theorem pollLoop_checks_ge (statuses : Nat → String) (update_id timeout interval : Nat)
    (fuel k : Nat) (o : PollOutcome)
    (h : pollLoop statuses update_id timeout interval fuel k = some o) :
    k ≤ o.checksOf := by
  rcases pollLoop_shape statuses update_id timeout interval fuel k o h with
    ⟨j, hkj, ho, _⟩ | ⟨j, hkj, ho, _⟩ <;> subst ho <;>
    simp [PollOutcome.checksOf] <;> omega

/-- C1, counterexample.  The claim states that every call to
`wait_for_pending_update`, including one with `timeout_in_ms = 0`, performs
at least one status check before timing out.  It is false: with
`timeout_in_ms = 0` the loop guard `elapsed_time < timeout_in_ms` (0 < 0)
fails immediately, so the poller raises `MeiliSearchTimeoutError` after zero
status checks (and zero sleeps), as this concrete run shows. -/
theorem C1_counterexample :
    wait_for_pending_update (fun _ => "enqueued") 7 0 50 =
      some (.timedOut (timeoutMessage 0 7) 0 0) ∧
    (PollOutcome.timedOut (timeoutMessage 0 7) 0 0).checksOf = 0 := by
  exact ⟨rfl, rfl⟩

/-- C1, amended.  For every call to the task poller with a positive
`timeout_in_ms` — in particular one smaller than `interval_in_ms` — and a
positive `interval_in_ms`, the poller produces an outcome in which at least
one status check was performed, and in which the sleeps never outnumber the
checks (each sleep is preceded by a completed status check, so the first
status check happens before the first sleep).  With `timeout_in_ms = 0` the
poller times out without performing any status check. -/
theorem C1_amended (statuses : Nat → String) (update_id timeout_in_ms interval_in_ms : Nat)
    (ht : 1 ≤ timeout_in_ms) (hi : 1 ≤ interval_in_ms) :
    ∃ o, wait_for_pending_update statuses update_id timeout_in_ms interval_in_ms = some o ∧
      1 ≤ o.checksOf ∧ o.sleepsOf ≤ o.checksOf := by
  obtain ⟨o, ho⟩ := wait_terminates statuses update_id timeout_in_ms interval_in_ms hi
  refine ⟨o, ho, ?_⟩
  rcases pollLoop_shape statuses update_id timeout_in_ms interval_in_ms
      (timeout_in_ms + 1) 0 o ho with ⟨j, _, hoe, _⟩ | ⟨j, _, hoe, hjt⟩
  · subst hoe; simp [PollOutcome.checksOf, PollOutcome.sleepsOf]
  · subst hoe
    simp only [PollOutcome.checksOf, PollOutcome.sleepsOf]
    constructor
    · by_contra hj
      have : j = 0 := by omega
      subst this; omega
    · exact le_refl j

/-- C1, witness for the amended theorem: with `timeout_in_ms = 10` smaller
than `interval_in_ms = 50`, the poller still performs a status check before
its first sleep. -/
theorem C1_witness :
    1 ≤ 10 ∧ 1 ≤ 50 ∧
    ∃ o, wait_for_pending_update (fun _ => "enqueued") 4 10 50 = some o ∧
      1 ≤ o.checksOf ∧ o.sleepsOf ≤ o.checksOf :=
  ⟨by omega, by omega,
    C1_amended (fun _ => "enqueued") 4 10 50 (by omega) (by omega)⟩

/-- C5, confirmed.  For every run of the task poller: (i) if a first status
check happens (the timeout is positive) and it returns a terminal status
(neither "enqueued" nor "processing"), that status is returned immediately,
after exactly one check and zero sleeps; (ii) if every status check returns
a pending status, the poller raises a `MeiliSearchTimeoutError` whose
message is the index.py 213-215 string carrying the task id and the
configured timeout, and the elapsed wall-clock time at failure,
`k * interval_in_ms` after `k` sleeps, is at least `timeout_in_ms`. -/
theorem C5_poller_terminal_and_timeout (statuses : Nat → String)
    (update_id timeout_in_ms interval_in_ms : Nat) :
    (0 < timeout_in_ms → ¬ isPending (statuses 0) →
      wait_for_pending_update statuses update_id timeout_in_ms interval_in_ms =
        some (.success (statuses 0) 1 0)) ∧
    (1 ≤ interval_in_ms → (∀ j, isPending (statuses j)) →
      ∃ k, wait_for_pending_update statuses update_id timeout_in_ms interval_in_ms =
          some (.timedOut (timeoutMessage timeout_in_ms update_id) k k) ∧
        timeout_in_ms ≤ k * interval_in_ms) := by
  constructor
  · intro ht hp
    unfold wait_for_pending_update
    rw [pollLoop]
    have h0 : 0 * interval_in_ms < timeout_in_ms := by omega
    simp [h0, hp]
    omega
  · intro hi hall
    obtain ⟨o, ho⟩ := wait_terminates statuses update_id timeout_in_ms interval_in_ms hi
    rcases pollLoop_shape statuses update_id timeout_in_ms interval_in_ms
        (timeout_in_ms + 1) 0 o ho with ⟨j, _, _, _, hnp⟩ | ⟨j, _, hoe, hjt⟩
    · exact absurd (hall j) hnp
    · exact ⟨j, by rw [← hoe]; exact ho, hjt⟩

/-- C5, witness: a first check answering "processed" is returned with no
sleep; an always-"enqueued" task times out with the task id and timeout in
the message, the elapsed time (4 sleeps of 30 ms = 120 ms) exceeding the
100 ms timeout. -/
theorem C5_witness :
    (wait_for_pending_update (fun _ => "processed") 9 5000 50 =
      some (.success "processed" 1 0)) ∧
    (∃ k, wait_for_pending_update (fun _ => "enqueued") 3 100 30 =
        some (.timedOut (timeoutMessage 100 3) k k) ∧ 100 ≤ k * 30) :=
  ⟨(C5_poller_terminal_and_timeout (fun _ => "processed") 9 5000 50).1
      (by omega) (by decide),
    (C5_poller_terminal_and_timeout (fun _ => "enqueued") 3 100 30).2
      (by omega) (fun _ => rfl)⟩

/-! ## Object identity: Client / Index / HttpRequests / session
(client.py 17-30, 154-168; index.py 22-45; _httprequests.py 22-28, 39-40)

Python object identity is modelled with an allocation counter: every
`Config(...)` and every `HttpRequests(...)` constructor call draws a fresh
address.  The session slot `self.session` of `HttpRequests.__init__`
(_httprequests.py 28) lives inside the `HttpRequests` object, so session
identity is the address of the owning `HttpRequests` object; `send_request`
lazily opens that object's session (_httprequests.py 39-40), modelled by
adding the object's address to the set of open sessions. -/

/-- Allocation state plus the set of `HttpRequests` objects whose session
slot currently holds an open session. -/
structure World where
  nextAddr : Nat
  openSessions : List Nat
  deriving DecidableEq, Repr

/-- An allocated `Config` object (client.py 28): identity only; its fields
(url, api key, timeout) are irrelevant to the sharing claim. -/
structure ConfigObj where
  addr : Nat
  deriving DecidableEq, Repr

/-- An allocated `HttpRequests` object (_httprequests.py 22-28): it stores
the config it was given by reference and owns its own session slot
(`self.session = None`). -/
structure HttpRequestsObj where
  addr : Nat
  configAddr : Nat
  deriving DecidableEq, Repr

/-- `HttpRequests.__init__(config)` (_httprequests.py 23-28): allocates a new
object with a fresh (hence initially closed) session slot. -/
def HttpRequests_init (config : ConfigObj) (w : World) : HttpRequestsObj × World :=
  (⟨w.nextAddr, config.addr⟩, { w with nextAddr := w.nextAddr + 1 })

/-- The client object: `self.config` and `self.http` (client.py 28-30). -/
structure ClientObj where
  config : ConfigObj
  http : HttpRequestsObj
  deriving DecidableEq, Repr

/-- An index handle: `self.config`, `self.http`, `self.uid`
(index.py 40-42). -/
structure IndexObj where
  config : ConfigObj
  http : HttpRequestsObj
  uid : String
  deriving DecidableEq, Repr

/-- `Client.__init__` (client.py 17-30): allocates a fresh `Config` and a
fresh `HttpRequests` over it. -/
def Client_init (w : World) : ClientObj × World :=
  let config : ConfigObj := ⟨w.nextAddr⟩
  let w1 : World := { w with nextAddr := w.nextAddr + 1 }
  let (http, w2) := HttpRequests_init config w1
  (⟨config, http⟩, w2)

/-- `Index.__init__(config, uid, ...)` (index.py 22-45): stores the given
config by reference but constructs a brand-new `HttpRequests(config)`
(index.py 41). -/
def Index_init (config : ConfigObj) (uid : String) (w : World) : IndexObj × World :=
  let (http, w1) := HttpRequests_init config w
  (⟨config, http, uid⟩, w1)

/-- `Client.index(uid)` (client.py 154-168): `Index(self.config, uid=uid)`. -/
def Client_index (c : ClientObj) (uid : String) (w : World) : IndexObj × World :=
  Index_init c.config uid w

/-- Lazy session opening of `send_request` (_httprequests.py 39-40): if the
object's session is absent, open one; otherwise reuse it. -/
def ensureSession (http : HttpRequestsObj) (w : World) : World :=
  if http.addr ∈ w.openSessions then w
  else { w with openSessions := http.addr :: w.openSessions }

/-- C2, counterexample.  The claim states that an `Index` spawned from a
`Client` shares the client's `Config` *and* `Session` by reference, so that
at most one open session exists per client instance.  `Config` is indeed
shared, but `Index.__init__` constructs its own `HttpRequests` (index.py 41)
with its own session slot: after the client and the spawned handle each send
one request, two distinct sessions are open. -/
theorem C2_counterexample :
    (Client_init ⟨0, []⟩).1.config =
      (Client_index (Client_init ⟨0, []⟩).1 "movies" (Client_init ⟨0, []⟩).2).1.config ∧
    (Client_init ⟨0, []⟩).1.http.addr ≠
      (Client_index (Client_init ⟨0, []⟩).1 "movies" (Client_init ⟨0, []⟩).2).1.http.addr ∧
    (ensureSession (Client_init ⟨0, []⟩).1.http
        (ensureSession
          (Client_index (Client_init ⟨0, []⟩).1 "movies" (Client_init ⟨0, []⟩).2).1.http
          (Client_index (Client_init ⟨0, []⟩).1 "movies"
            (Client_init ⟨0, []⟩).2).2)).openSessions.length = 2 := by
  decide

/-- C2, amended.  Every `Index` handle spawned from a client via
`Client.index` shares the client's `Config` by reference, but receives its
own freshly constructed `HttpRequests` — hence its own session slot,
distinct from the client's.  A client instance together with its spawned
handles can therefore hold several open sessions (one per `HttpRequests`
object), not at most one.  (The other spawn paths — `get_index`,
`create_index`, `get_indexes` — construct their handles through the same
`Index.__init__`.) -/
theorem C2_amended (c : ClientObj) (uid : String) (w : World)
    (hc : c.http.addr < w.nextAddr)
    (hw : ∀ a ∈ w.openSessions, a < w.nextAddr) :
    let iw := Client_index c uid w
    iw.1.config = c.config ∧
    iw.1.http.addr ≠ c.http.addr ∧
    (ensureSession c.http (ensureSession iw.1.http w)).openSessions.length =
      (ensureSession c.http w).openSessions.length + 1 := by
  intro iw
  have hconf : iw.1.config = c.config := rfl
  have haddr : iw.1.http.addr = w.nextAddr := rfl
  refine ⟨hconf, by omega, ?_⟩
  have hmemI : iw.1.http.addr ∉ w.openSessions := by
    intro hmem
    have := hw _ hmem
    omega
  have hne : c.http.addr ≠ iw.1.http.addr := by omega
  by_cases hmemC : c.http.addr ∈ w.openSessions
  · simp [ensureSession, hmemI, hmemC, hne]
  · simp [ensureSession, hmemI, hmemC, hne]

/-- C2, witness: in a fresh world, a client's handle has a distinct session
slot and a second session opens alongside the client's. -/
theorem C2_witness :
    (Client_init ⟨0, []⟩).1.http.addr < (Client_init ⟨0, []⟩).2.nextAddr ∧
    (let c := (Client_init ⟨0, []⟩).1
     let w := (Client_init ⟨0, []⟩).2
     let iw := Client_index c "movies" w
     iw.1.config = c.config ∧
     iw.1.http.addr ≠ c.http.addr ∧
     (ensureSession c.http (ensureSession iw.1.http w)).openSessions.length =
       (ensureSession c.http w).openSessions.length + 1) :=
  ⟨by decide,
    C2_amended (Client_init ⟨0, []⟩).1 "movies" (Client_init ⟨0, []⟩).2 (by decide)
      (by intro a ha; simp [Client_init, HttpRequests_init] at ha)⟩

/-! ## Error taxonomy and the idempotency carve-outs
(errors.py; client.py 58-79, 170-195, 225-231; index.py 62-77)

The HTTP outcome reaching each operation is abstracted as an `Except` value:
`Except.ok` for a 2xx response, `Except.error` for a raised client error.
`MeiliSearchApiError.code` (errors.py 19, 26) is `None` unless the response
body supplied one, hence an `Option String`. -/

/-- `MeiliSearchApiError` (errors.py 14-36): HTTP status plus the fields
extracted from the JSON body (each absent when the body lacked them). -/
structure ApiError where
  status_code : Nat
  code : Option String
  message : Option String
  link : Option String
  deriving DecidableEq, Repr

/-- The `MeiliSearchError` hierarchy (errors.py): API, communication and
timeout errors all extend `MeiliSearchError`. -/
inductive MeiliSearchError where
  | api (e : ApiError)
  | communication (message : String)
  | timeout (message : String)
  deriving DecidableEq, Repr

/-- `Client.delete_index_if_exists` (client.py 58-79): try the delete; on an
`ApiError` whose code is not "index_not_found", re-raise; on a
not-found-coded one, return False; on success, return True. -/
def delete_index_if_exists (deleteOutcome : Except ApiError Unit) : Except ApiError Bool :=
  match deleteOutcome with
  | .ok _ => .ok true
  | .error e => if e.code ≠ some "index_not_found" then .error e else .ok false

/-- `Index.delete_if_exists` (index.py 62-77): same carve-out as
`Client.delete_index_if_exists`, on the handle's own delete. -/
def delete_if_exists (deleteOutcome : Except ApiError Unit) : Except ApiError Bool :=
  match deleteOutcome with
  | .ok _ => .ok true
  | .error e => if e.code ≠ some "index_not_found" then .error e else .ok false

/-- `Client.get_or_create_index` (client.py 170-195): try `get_index`; on an
`ApiError` whose code is not "index_not_found", re-raise; on a
not-found-coded one, fall through to `create_index`. -/
def get_or_create_index {α : Type} (getOutcome createOutcome : Except ApiError α) :
    Except ApiError α :=
  match getOutcome with
  | .ok idx => .ok idx
  | .error e => if e.code ≠ some "index_not_found" then .error e else createOutcome

/-- `Client.is_healthy` (client.py 225-231): catches every
`MeiliSearchError` from `health()` and returns False. -/
def is_healthy (healthOutcome : Except MeiliSearchError Unit) : Bool :=
  match healthOutcome with
  | .ok _ => true
  | .error _ => false

/-- C4, counterexample.  The claim states that the only errors ever
swallowed are NotFound-coded ApiErrors in the idempotency carve-out.  But
`Client.is_healthy` (client.py 225-231) catches every `MeiliSearchError`:
here a `MeiliSearchCommunicationError` and a non-NotFound
`MeiliSearchApiError` are both swallowed into the boolean False instead of
propagating. -/
theorem C4_counterexample :
    is_healthy (.error (.communication "Cannot connect to host localhost:7700")) = false ∧
    is_healthy (.error (.api ⟨403, some "invalid_api_key", none, none⟩)) = false := by
  exact ⟨rfl, rfl⟩

/-- C4, amended.  Within the idempotency operations
`delete_index_if_exists`, `delete_if_exists` and `get_or_create_index`, the
only swallowed errors are ApiErrors whose code is "index_not_found": the
deletes then return False (and True when the delete succeeds), and
get-or-create then falls back to creation (otherwise returning the fetched
index); every ApiError with any other code (including a missing code)
propagates unchanged from these operations.  Separately, `is_healthy`
swallows every client error of any kind, returning False. -/
theorem C4_amended {α : Type} (e : ApiError) (idx : α)
    (createOutcome : Except ApiError α) (err : MeiliSearchError) :
    delete_index_if_exists (.ok ()) = .ok true ∧
    delete_index_if_exists (.error e) =
      (if e.code = some "index_not_found" then .ok false else .error e) ∧
    delete_if_exists (.ok ()) = .ok true ∧
    delete_if_exists (.error e) =
      (if e.code = some "index_not_found" then .ok false else .error e) ∧
    get_or_create_index (.ok idx) createOutcome = .ok idx ∧
    get_or_create_index (.error e) createOutcome =
      (if e.code = some "index_not_found" then createOutcome else .error e) ∧
    is_healthy (.ok ()) = true ∧
    is_healthy (.error err) = false := by
  refine ⟨rfl, ?_, rfl, ?_, rfl, ?_, rfl, rfl⟩ <;>
    by_cases h : e.code = some "index_not_found" <;>
    simp [delete_index_if_exists, delete_if_exists, get_or_create_index, h]

/-! ## Batching: Index._batch, add/update_documents_in_batches
(index.py 329-362, 491-524, 1079-1085)

`_batch` is

    total_len = len(documents)
    for i in range(0, total_len, batch_size):
        yield documents[i : i + batch_size]

The HTTP layer is modelled as a trace: each awaited document call appends
its verb and payload to `sent` and returns the next task id.  Documents are
opaque values of a type `α`. -/

/-- Python `range(start, stop, step)` for a positive step: the documented
length is ceil((stop - start) / step) (and `range` raises ValueError on a
zero step, modelled as the unreachable empty list). -/
def rangeStep (start stop step : Nat) : List Nat :=
  if step = 0 then []
  else (List.range ((stop - start + step - 1) / step)).map (fun k => start + k * step)

/-- `Index._batch(documents, batch_size)` (index.py 1079-1085); the Python
slice `documents[i : i + batch_size]` is `(documents.drop i).take batch_size`. -/
def batch {α : Type} (documents : List α) (batch_size : Nat) : List (List α) :=
  (rangeStep 0 documents.length batch_size).map
    (fun i => (documents.drop i).take batch_size)

/-- Trace-state of the document HTTP layer: issued calls (verb, payload) in
order, and the next task id the server will hand out. -/
structure DocHttpState (α : Type) where
  sent : List (String × List α)
  nextTaskId : Nat
  deriving DecidableEq, Repr

/-- `Index.add_documents` (index.py 304-327): one awaited POST of the whole
document list, returning the task reference. -/
def add_documents {α : Type} (documents : List α) (st : DocHttpState α) :
    Nat × DocHttpState α :=
  (st.nextTaskId, ⟨st.sent ++ [("POST", documents)], st.nextTaskId + 1⟩)

/-- `Index.update_documents` (index.py 468-489): one awaited PUT of the whole
document list, returning the task reference. -/
def update_documents {α : Type} (documents : List α) (st : DocHttpState α) :
    Nat × DocHttpState α :=
  (st.nextTaskId, ⟨st.sent ++ [("PUT", documents)], st.nextTaskId + 1⟩)

/-- The `for document_batch in self._batch(...)` loop of
`add_documents_in_batches` (index.py 356-362): each batch is awaited
(`update_id = await self.add_documents(document_batch, primary_key)`) and
its task reference appended. -/
def add_in_batches_go {α : Type} : List (List α) → DocHttpState α →
    List Nat × DocHttpState α
  | [], st => ([], st)
  | b :: bs, st =>
    let r := add_documents b st
    let rest := add_in_batches_go bs r.2
    (r.1 :: rest.1, rest.2)

/-- `Index.add_documents_in_batches` (index.py 329-362). -/
def add_documents_in_batches {α : Type} (documents : List α) (batch_size : Nat)
    (st : DocHttpState α) : List Nat × DocHttpState α :=
  add_in_batches_go (batch documents batch_size) st

/-- A value appended to the `update_ids` list of
`update_documents_in_batches`: index.py 521 reads
`update_id = self.update_documents(document_batch, primary_key)` with no
`await`, so what is appended is the un-executed coroutine object, not a task
reference. -/
inductive PyValue (α : Type) where
  | taskRef (id : Nat)
  | coroutine (verb : String) (documents : List α)
  deriving DecidableEq, Repr

/-- The loop of `update_documents_in_batches` (index.py 518-524): calling the
async method without `await` creates a coroutine object and performs no
request, so the trace state is threaded through unchanged. -/
def update_in_batches_go {α : Type} : List (List α) → DocHttpState α →
    List (PyValue α) × DocHttpState α
  | [], st => ([], st)
  | b :: bs, st =>
    let uid : PyValue α := .coroutine "PUT" b
    let rest := update_in_batches_go bs st
    (uid :: rest.1, rest.2)

/-- `Index.update_documents_in_batches` (index.py 491-524). -/
def update_documents_in_batches {α : Type} (documents : List α) (batch_size : Nat)
    (st : DocHttpState α) : List (PyValue α) × DocHttpState α :=
  update_in_batches_go (batch documents batch_size) st

/-- The chunk sizes `_batch` produces, as a function of the document count
alone. -/
def chunkSizes (n bs : Nat) : List Nat :=
  (rangeStep 0 n bs).map (fun i => min bs (n - i))

/-- The sizes of the batches depend only on the document count. -/
theorem batch_map_length {α : Type} (documents : List α) (bs : Nat) :
    (batch documents bs).map List.length = chunkSizes documents.length bs := by
  unfold batch chunkSizes
  rw [List.map_map]
  apply List.map_congr_left
  intro i _
  simp [List.length_take, List.length_drop]

/-- Ceiling-count arithmetic behind `range(0, n, bs)`: a non-empty list has
one more chunk than its tail beyond the first `bs` elements. -/
theorem chunkCount_succ (n bs : Nat) (hbs : 0 < bs) (hn : 0 < n) :
    (n + bs - 1) / bs = ((n - bs) + bs - 1) / bs + 1 := by
  have h1 : n + bs - 1 = (n - 1) + bs := by omega
  rw [h1, Nat.add_div_right _ hbs]
  rcases le_or_lt n bs with hle | hgt
  · have h2 : n - bs = 0 := by omega
    have h3 : (n - 1) / bs = 0 := Nat.div_eq_of_lt (by omega)
    have h4 : (bs - 1) / bs = 0 := Nat.div_eq_of_lt (by omega)
    simp [h2, h3, h4]
  · have h2 : (n - bs) + bs - 1 = (n - bs - 1) + bs := by omega
    have h3 : n - 1 = (n - bs - 1) + bs := by omega
    rw [h2, Nat.add_div_right _ hbs, h3, Nat.add_div_right _ hbs]

/-- Unfolding lemma: with a positive batch size and a non-empty list,
`_batch` yields the first `bs` documents and then batches the rest. -/
theorem batch_cons {α : Type} (documents : List α) (bs : Nat) (hbs : 0 < bs)
    (hne : documents ≠ []) :
    batch documents bs = documents.take bs :: batch (documents.drop bs) bs := by
  have hlen : 0 < documents.length := List.length_pos.mpr hne
  unfold batch
  have hbs0 : bs ≠ 0 := by omega
  simp only [rangeStep, hbs0, if_false, List.length_drop, Nat.sub_zero]
  have hcount : (documents.length + bs - 1) / bs =
      ((documents.length - bs) + bs - 1) / bs + 1 :=
    chunkCount_succ documents.length bs hbs hlen
  rw [hcount, List.range_succ_eq_map]
  simp only [List.map_cons, List.map_map]
  refine congrArg₂ List.cons ?_ ?_
  · simp
  · apply List.map_congr_left
    intro k _
    simp only [Function.comp_apply]
    rw [List.drop_drop]
    have h5 : 0 + Nat.succ k * bs = 0 + k * bs + bs := by
      rw [Nat.succ_mul, Nat.add_assoc]
    rw [h5]
    have h6 : 0 + k * bs + bs = bs + (0 + k * bs) := by ring
    rw [h6]

/-- `_batch` splits the documents into consecutive chunks: concatenating the
batches in order gives back the original list. -/
theorem batch_flatten {α : Type} (documents : List α) (bs : Nat) (hbs : 0 < bs) :
    (batch documents bs).flatten = documents := by
  have H : ∀ n (docs : List α), docs.length = n → (batch docs bs).flatten = docs := by
    intro n
    induction n using Nat.strong_induction_on with
    | _ n ih =>
      intro docs hn
      rcases docs with _ | ⟨d, ds⟩
      · have hz : (0 + bs - 1) / bs = 0 := Nat.div_eq_of_lt (by omega)
        simp [batch, rangeStep, hz, show bs ≠ 0 by omega]
      · rw [batch_cons _ _ hbs (by simp), List.flatten_cons]
        have hdrop : ((d :: ds).drop bs).length < n := by
          rw [List.length_drop]
          simp only [List.length_cons] at hn ⊢
          omega
        rw [ih _ hdrop _ rfl]
        exact List.take_append_drop bs (d :: ds)
  exact H documents.length documents rfl

/-- The awaited add loop issues exactly one POST per chunk, in chunk order,
and returns consecutive task references in call order. -/
theorem add_in_batches_go_spec {α : Type} (chunks : List (List α)) (st : DocHttpState α) :
    add_in_batches_go chunks st =
      (List.range' st.nextTaskId chunks.length,
       ⟨st.sent ++ chunks.map (fun b => ("POST", b)), st.nextTaskId + chunks.length⟩) := by
  induction chunks generalizing st with
  | nil => simp [add_in_batches_go]
  | cons b bs ih =>
    simp only [add_in_batches_go, add_documents, ih, List.length_cons, List.map_cons]
    refine congrArg₂ Prod.mk ?_ ?_
    · simp [List.range'_succ]
    · refine congrArg₂ DocHttpState.mk ?_ (by omega)
      simp

/-- The un-awaited update loop issues no request at all and returns one
coroutine object per chunk. -/
theorem update_in_batches_go_spec {α : Type} (chunks : List (List α))
    (st : DocHttpState α) :
    update_in_batches_go chunks st =
      (chunks.map (fun b => PyValue.coroutine "PUT" b), st) := by
  induction chunks generalizing st with
  | nil => simp [update_in_batches_go]
  | cons b bs ih => simp [update_in_batches_go, ih]

/-- C3.  Evaluation of both batched operations on 2500 documents with
batch_size 1000, starting from an empty trace.  The awaited add path behaves
as the claim states: exactly 3 POST calls whose chunk sizes are 1000, 1000,
500, chunks consecutive and in list order (their concatenation is the input),
and 3 task references returned in call order.  The update path does not: the
missing `await` at index.py 521 makes it append three un-executed coroutine
objects and issue no call at all, leaving the trace state untouched. -/
theorem C3_add_batches_ok_update_batches_never_sends :
    (add_documents_in_batches (List.range 2500) 1000 ⟨[], 0⟩).1 = [0, 1, 2] ∧
    (add_documents_in_batches (List.range 2500) 1000 ⟨[], 0⟩).2.sent.map
        (fun c => (c.1, c.2.length)) =
      [("POST", 1000), ("POST", 1000), ("POST", 500)] ∧
    (add_documents_in_batches (List.range 2500) 1000 ⟨[], 0⟩).2.sent.map Prod.snd =
      batch (List.range 2500) 1000 ∧
    (batch (List.range 2500) 1000).flatten = List.range 2500 ∧
    (update_documents_in_batches (List.range 2500) 1000 ⟨[], 0⟩).1 =
      (batch (List.range 2500) 1000).map (fun b => PyValue.coroutine "PUT" b) ∧
    (update_documents_in_batches (List.range 2500) 1000 ⟨[], 0⟩).2 =
      (⟨[], 0⟩ : DocHttpState Nat) := by
  have hlen : (List.range 2500).length = 2500 := List.length_range 2500
  have hsizes : (batch (List.range 2500) 1000).map List.length = [1000, 1000, 500] := by
    rw [batch_map_length, hlen]
    decide
  have hclen : (batch (List.range 2500) 1000).length = 3 := by
    have h := congrArg List.length hsizes
    simpa using h
  have hadd := add_in_batches_go_spec (batch (List.range 2500) 1000)
    (⟨[], 0⟩ : DocHttpState Nat)
  have hupd := update_in_batches_go_spec (batch (List.range 2500) 1000)
    (⟨[], 0⟩ : DocHttpState Nat)
  refine ⟨?_, ?_, ?_, batch_flatten _ _ (by omega), ?_, ?_⟩
  · rw [add_documents_in_batches, hadd, hclen]
    rfl
  · rw [add_documents_in_batches, hadd]
    simp only [List.nil_append, List.map_map]
    rw [show ((fun c : String × List Nat => (c.1, c.2.length)) ∘
        (fun b : List Nat => ("POST", b))) =
      ((fun n : Nat => (("POST" : String), n)) ∘ List.length) from rfl, ← List.map_map,
      hsizes]
    rfl
  · rw [add_documents_in_batches, hadd]
    simp
  · rw [update_documents_in_batches, hupd]
  · rw [update_documents_in_batches, hupd]

/-! ## Transport body handling: HttpRequests.send_request
(_httprequests.py 30-63) and the raw-document operations
(index.py 364-466, 1115-1122)

The data actually transmitted is chosen at _httprequests.py 47-62:

    if isinstance(body, bytes):
        ... data=body ...
    else:
        ... data=json.dumps(body) if body else None ...

so only `bytes` bodies bypass `json.dumps`, and a falsy body (None, empty
dict/list/str) is sent with no data at all.  Python strings are `List Char`,
bytes are `List Nat`.  `json.dumps` is modelled with its default settings
(separators ", " and ": ", ensure_ascii). -/

/-- A JSON-serialisable Python value (the dict/list/str bodies the client
passes to the transport). -/
inductive JsonValue where
  | jnull
  | jbool (b : Bool)
  | jnum (n : Int)
  | jstr (s : List Char)
  | jarr (xs : List JsonValue)
  | jobj (kvs : List (List Char × JsonValue))

/-- Lowercase hexadecimal digit, as used by `json.dumps` \uXXXX escapes. -/
def hexDigitChar : Nat → Char
  | 0 => '0' | 1 => '1' | 2 => '2' | 3 => '3' | 4 => '4'
  | 5 => '5' | 6 => '6' | 7 => '7' | 8 => '8' | 9 => '9'
  | 10 => 'a' | 11 => 'b' | 12 => 'c' | 13 => 'd' | 14 => 'e'
  | 15 => 'f' | _ => '*'

/-- A \uXXXX escape for a code unit below 0x10000. -/
def uEscape (n : Nat) : List Char :=
  ['\\', 'u', hexDigitChar (n / 4096 % 16), hexDigitChar (n / 256 % 16),
    hexDigitChar (n / 16 % 16), hexDigitChar (n % 16)]

/-- How `json.dumps` (ensure_ascii) renders one character inside a JSON
string: the two-character escapes for quote, backslash and the usual control
characters, \uXXXX (with a surrogate pair beyond the BMP) for other control
or non-ASCII characters, and the character itself otherwise. -/
def escapeJsonChar (c : Char) : List Char :=
  if c = '"' then ['\\', '"']
  else if c = '\\' then ['\\', '\\']
  else if c = '\n' then ['\\', 'n']
  else if c = '\r' then ['\\', 'r']
  else if c = '\t' then ['\\', 't']
  else if c.toNat = 8 then ['\\', 'b']
  else if c.toNat = 12 then ['\\', 'f']
  else if c.toNat < 32 || 127 ≤ c.toNat then
    if c.toNat < 65536 then uEscape c.toNat
    else
      uEscape (55296 + (c.toNat - 65536) / 1024) ++
        uEscape (56320 + (c.toNat - 65536) % 1024)
  else [c]

mutual

/-- Python `json.dumps` with its default separators. -/
def jsonDumps : JsonValue → List Char
  | .jnull => "null".data
  | .jbool true => "true".data
  | .jbool false => "false".data
  | .jnum n => (toString n).data
  | .jstr s => '"' :: (s.map escapeJsonChar).flatten ++ ['"']
  | .jarr xs => '[' :: jsonDumpsList xs ++ [']']
  | .jobj kvs => '\x7b' :: jsonDumpsObj kvs ++ ['\x7d']

/-- Comma-separated array elements. -/
def jsonDumpsList : List JsonValue → List Char
  | [] => []
  | [x] => jsonDumps x
  | x :: y :: xs => jsonDumps x ++ ", ".data ++ jsonDumpsList (y :: xs)

/-- Comma-separated object members. -/
def jsonDumpsObj : List (List Char × JsonValue) → List Char
  | [] => []
  | [(k, v)] => jsonDumps (.jstr k) ++ ": ".data ++ jsonDumps v
  | (k, v) :: kv :: kvs =>
    jsonDumps (.jstr k) ++ ": ".data ++ jsonDumps v ++ ", ".data ++
      jsonDumpsObj (kv :: kvs)

end

/-- Unfolding equation for the string case of `jsonDumps`. -/
theorem jsonDumps_jstr (s : List Char) :
    jsonDumps (.jstr s) = '"' :: (s.map escapeJsonChar).flatten ++ ['"'] := by
  rw [jsonDumps]

/-- The `body` argument of `send_request` (_httprequests.py 34-36):
None, a dict, a list, a str, or (checked first at line 47) bytes. -/
inductive Body where
  | noBody
  | dict (kvs : List (List Char × JsonValue))
  | list (xs : List JsonValue)
  | str (s : List Char)
  | bytes (bs : List Nat)

/-- Python truthiness of a request body, as tested by
`json.dumps(body) if body else None` (_httprequests.py 61): None and empty
collections are falsy. -/
def pyTruthy : Body → Bool
  | .noBody => false
  | .dict kvs => !kvs.isEmpty
  | .list xs => !xs.isEmpty
  | .str s => !s.isEmpty
  | .bytes bs => !bs.isEmpty

/-- The JSON value `json.dumps` receives for a non-bytes body (the bytes and
None cases never reach `json.dumps`). -/
def bodyToJson : Body → JsonValue
  | .noBody => .jnull
  | .dict kvs => .jobj kvs
  | .list xs => .jarr xs
  | .str s => .jstr s
  | .bytes _ => .jnull

/-- What is handed to the HTTP session as `data`: raw bytes, or serialised
text. -/
inductive SentData where
  | raw (bs : List Nat)
  | text (s : List Char)
  deriving DecidableEq, Repr

/-- The `data` kwarg computed by `send_request` (_httprequests.py 47-62):
a bytes body is passed through unchanged; any other body is JSON-serialised
when truthy and omitted (data=None) when falsy. -/
def send_request_data : Body → Option SentData
  | .bytes bs => some (.raw bs)
  | b => if pyTruthy b then some (.text (jsonDumps (bodyToJson b))) else none

/-- Modelled from the spec: the repository's `Config` class (module
ameilisearch.config, imported at index.py 10 but not among the provided
sources) exposes `paths.index`; per spec section 6 the collection route is
"indexes". -/
def paths_index : List Char := "indexes".data

/-- Modelled from the spec: `Config.paths.document`, the document sub-route
"documents" of spec section 6. -/
def paths_document : List Char := "documents".data

/-- Model of `urlencode(\x7b"primaryKey": primary_key\x7d)` (index.py 1121)
for keys that need no percent-encoding. -/
def urlencodePrimaryKey (pk : List Char) : List Char :=
  "primaryKey=".data ++ pk

/-- `Index._build_url` (index.py 1115-1122). -/
def build_url (uid : List Char) (primary_key : Option (List Char)) : List Char :=
  match primary_key with
  | none => paths_index ++ "/".data ++ uid ++ "/".data ++ paths_document
  | some pk =>
    paths_index ++ "/".data ++ uid ++ "/".data ++ paths_document ++ "?".data ++
      urlencodePrimaryKey pk

/-- One request as assembled by `send_request`: verb, path, the per-call
content type argument, and the transmitted data. -/
structure SentRequest where
  method : List Char
  path : List Char
  contentType : Option (List Char)
  data : Option SentData
  deriving DecidableEq, Repr

/-- `Index.add_documents_raw` (index.py 440-466): POSTs the caller's
pre-serialised *str* payload, which `send_request` therefore treats as a
non-bytes body. -/
def add_documents_raw (uid str_documents : List Char)
    (primary_key : Option (List Char)) (content_type : Option (List Char)) :
    SentRequest :=
  ⟨"POST".data, build_url uid primary_key, content_type,
    send_request_data (.str str_documents)⟩

/-- `Index.add_documents_json` (index.py 364-388). -/
def add_documents_json (uid str_documents : List Char)
    (primary_key : Option (List Char)) : SentRequest :=
  add_documents_raw uid str_documents primary_key (some "application/json".data)

/-- `Index.add_documents_csv` (index.py 390-412). -/
def add_documents_csv (uid str_documents : List Char)
    (primary_key : Option (List Char)) : SentRequest :=
  add_documents_raw uid str_documents primary_key (some "text/csv".data)

/-- `Index.add_documents_ndjson` (index.py 414-438). -/
def add_documents_ndjson (uid str_documents : List Char)
    (primary_key : Option (List Char)) : SentRequest :=
  add_documents_raw uid str_documents primary_key (some "application/x-ndjson".data)

/-- The request assembled by `Index.add_documents` (index.py 304-327):
`self.http.post(url, documents)`, whose default content type is
"application/json" (_httprequests.py 79). -/
def add_documents_request (uid : List Char) (documents : List JsonValue)
    (primary_key : Option (List Char)) : SentRequest :=
  ⟨"POST".data, build_url uid primary_key, some "application/json".data,
    send_request_data (.list documents)⟩

/-- The request assembled by `Index.delete_documents` (index.py 546-565):
a POST of the id list to the delete-batch route. -/
def delete_documents_request (uid : List Char) (ids : List (List Char)) :
    SentRequest :=
  ⟨"POST".data,
    paths_index ++ "/".data ++ uid ++ "/".data ++ paths_document ++
      "/delete-batch".data,
    some "application/json".data,
    send_request_data (.list (ids.map (fun i => .jstr i)))⟩

/-- C6.  Evaluation of the transport at the failing input.  The bulk
ingestion variants hand `send_request` a *str* payload, and only `bytes`
bodies bypass `json.dumps` (_httprequests.py 47): the CSV payload
"id,name\n1,foo" is transmitted as its JSON string encoding
"\"id,name\\n1,foo\"" — quoted and escaped, not byte-for-byte — so the
payload sent differs from the caller's pre-serialised payload.  A `bytes`
body would pass through unchanged, and the three variants do share one
underlying raw send differing only in the Content-Type header, but none of
them produces a bytes body. -/
theorem C6_raw_payload_is_json_encoded :
    (add_documents_csv "movies".data "id,name\n1,foo".data none).data =
      some (.text (jsonDumps (.jstr "id,name\n1,foo".data))) ∧
    jsonDumps (.jstr "id,name\n1,foo".data) = "\"id,name\\n1,foo\"".data ∧
    jsonDumps (.jstr "id,name\n1,foo".data) ≠ "id,name\n1,foo".data ∧
    send_request_data (.bytes [105, 100, 44, 110]) =
      some (.raw [105, 100, 44, 110]) ∧
    (add_documents_json "movies".data "id,name\n1,foo".data none).method =
      (add_documents_csv "movies".data "id,name\n1,foo".data none).method ∧
    (add_documents_json "movies".data "id,name\n1,foo".data none).path =
      (add_documents_csv "movies".data "id,name\n1,foo".data none).path ∧
    (add_documents_json "movies".data "id,name\n1,foo".data none).data =
      (add_documents_csv "movies".data "id,name\n1,foo".data none).data ∧
    (add_documents_ndjson "movies".data "id,name\n1,foo".data none).method =
      (add_documents_csv "movies".data "id,name\n1,foo".data none).method ∧
    (add_documents_ndjson "movies".data "id,name\n1,foo".data none).path =
      (add_documents_csv "movies".data "id,name\n1,foo".data none).path ∧
    (add_documents_ndjson "movies".data "id,name\n1,foo".data none).data =
      (add_documents_csv "movies".data "id,name\n1,foo".data none).data ∧
    (add_documents_json "movies".data "id,name\n1,foo".data none).contentType =
      some "application/json".data ∧
    (add_documents_csv "movies".data "id,name\n1,foo".data none).contentType =
      some "text/csv".data ∧
    (add_documents_ndjson "movies".data "id,name\n1,foo".data none).contentType =
      some "application/x-ndjson".data := by
  refine ⟨rfl, ?_, ?_, rfl, rfl, rfl, rfl, rfl, rfl, rfl, rfl, rfl, rfl⟩
  · rw [jsonDumps_jstr]
    decide
  · rw [jsonDumps_jstr]
    decide

/-- C9, confirmed.  A falsy structured body — the empty list or the empty
dict, e.g. from `add_documents([])` or `delete_documents([])` — makes
`json.dumps(body) if body else None` (_httprequests.py 61) evaluate to None:
the request is transmitted with no data at all, not with the JSON text "[]"
or the empty-object text. -/
theorem C9_empty_structured_body_sends_no_data :
    send_request_data (.list []) = none ∧
    send_request_data (.dict []) = none ∧
    (add_documents_request "movies".data [] none).data = none ∧
    (delete_documents_request "movies".data []).data = none := by
  exact ⟨rfl, rfl, rfl, rfl⟩

/-! ## Header state across requests (_httprequests.py 23-44)

`HttpRequests.__init__` stores `self.headers` with only the Authorization
entry; each `send_request` executes

    if content_type:
        self.headers["Content-Type"] = content_type
    self.headers = (dict comprehension dropping None values)

so a truthy content_type argument is written into the *object-level* dict,
the entry is never deleted later (its value is a string, never None), and
every subsequent request sends whatever the dict then holds. -/

/-- The header dict of one `HttpRequests` object: the Authorization value
set at construction, and the Content-Type entry once one has been written. -/
structure HttpHeaders where
  authorization : List Char
  contentType : Option (List Char)
  deriving DecidableEq, Repr

/-- `HttpRequests.__init__` (_httprequests.py 23-28): headers hold only
Authorization, "Bearer " followed by the api key. -/
def initHeaders (api_key : List Char) : HttpHeaders :=
  ⟨"Bearer ".data ++ api_key, none⟩

/-- Python truthiness of the `content_type` argument (`if content_type:`,
_httprequests.py 41): None and the empty string are falsy. -/
def ctTruthy : Option (List Char) → Bool
  | none => false
  | some c => !c.isEmpty

/-- The header mutation performed by one `send_request` call
(_httprequests.py 41-44): a truthy content_type overwrites the dict entry;
the None filter removes nothing since all stored values are strings. -/
def applyContentType (h : HttpHeaders) (ct : Option (List Char)) : HttpHeaders :=
  match ct with
  | some c => if !c.isEmpty then { h with contentType := some c } else h
  | none => h

/-- The headers actually sent by a sequence of `send_request` calls on one
`HttpRequests` object, given the per-call content_type arguments: each call
first mutates the object's dict, then sends it. -/
def sendHeaders : HttpHeaders → List (Option (List Char)) → List HttpHeaders
  | _, [] => []
  | h, ct :: rest =>
    let h1 := applyContentType h ct
    h1 :: sendHeaders h1 rest

/-- C7, counterexample.  The claim states a Content-Type header is present
iff a content_type argument was provided for that request, and in particular
that a request following one that provided a content_type is sent without
the header.  False: after a first call with content_type "text/csv", a
second call providing none still sends Content-Type "text/csv", because the
entry written into the object's header dict is never removed. -/
theorem C7_counterexample :
    (sendHeaders (initHeaders "masterKey".data)
        [some "text/csv".data, none]).get? 1 =
      some ⟨"Bearer masterKey".data, some "text/csv".data⟩ := by
  decide

/-- Invariant of the send loop: every sent header carries the starting
authorization value unchanged, and carries a Content-Type entry exactly when
the object already had one or some call up to it passed a truthy
content_type (whose last truthy value it holds; here we track presence). -/
theorem sendHeaders_get? (cts : List (Option (List Char))) :
    ∀ (h : HttpHeaders) (i : Nat) (hd : HttpHeaders),
      (sendHeaders h cts).get? i = some hd →
      hd.authorization = h.authorization ∧
      (hd.contentType.isSome = true ↔
        h.contentType.isSome = true ∨
          ∃ j, j ≤ i ∧ ∃ c, cts.get? j = some c ∧ ctTruthy c = true) := by
  induction cts with
  | nil => intro h i hd hget; simp [sendHeaders] at hget
  | cons ct rest ih =>
    intro h i hd hget
    have hauth : (applyContentType h ct).authorization = h.authorization := by
      rcases ct with _ | c
      · rfl
      · simp only [applyContentType]
        by_cases hc : c.isEmpty <;> simp [hc]
    have hctype : (applyContentType h ct).contentType.isSome = true ↔
        h.contentType.isSome = true ∨ ctTruthy ct = true := by
      rcases ct with _ | c
      · simp [applyContentType, ctTruthy]
      · simp only [applyContentType, ctTruthy]
        by_cases hc : c.isEmpty <;> simp [hc]
    rcases i with _ | i
    · simp only [sendHeaders, List.get?] at hget
      cases hget
      refine ⟨hauth, hctype.trans ?_⟩
      constructor
      · rintro (hh | hc)
        · exact Or.inl hh
        · exact Or.inr ⟨0, le_refl 0, ct, rfl, hc⟩
      · rintro (hh | ⟨j, hj, c, hcj, hc⟩)
        · exact Or.inl hh
        · have : j = 0 := by omega
          subst this
          simp only [List.get?] at hcj
          cases hcj
          exact Or.inr hc
    · simp only [sendHeaders, List.get?] at hget
      obtain ⟨ha, hb⟩ := ih (applyContentType h ct) i hd hget
      refine ⟨ha.trans hauth, hb.trans ?_⟩
      constructor
      · rintro (hh | ⟨j, hj, c, hcj, hc⟩)
        · rcases hctype.mp hh with hh2 | hc2
          · exact Or.inl hh2
          · exact Or.inr ⟨0, by omega, ct, rfl, hc2⟩
        · exact Or.inr ⟨j + 1, by omega, c, by simpa using hcj, hc⟩
      · rintro (hh | ⟨j, hj, c, hcj, hc⟩)
        · exact Or.inl (hctype.mpr (Or.inl hh))
        · rcases j with _ | j
          · simp only [List.get?] at hcj
            cases hcj
            exact Or.inl (hctype.mpr (Or.inr hc))
          · exact Or.inr ⟨j, by omega, c, by simpa using hcj, hc⟩

/-- C7, amended.  The Authorization bearer header is attached to every
request sent by the transport.  A Content-Type header is present on the
i-th request iff that request *or any earlier request on the same
HttpRequests object* provided a truthy content_type argument: the entry
written into the persistent header dict at _httprequests.py 42 is never
removed, so it leaks onto every later request. -/
theorem C7_amended (api_key : List Char) (cts : List (Option (List Char)))
    (i : Nat) (hd : HttpHeaders)
    (hget : (sendHeaders (initHeaders api_key) cts).get? i = some hd) :
    hd.authorization = "Bearer ".data ++ api_key ∧
    (hd.contentType.isSome = true ↔
      ∃ j, j ≤ i ∧ ∃ c, cts.get? j = some c ∧ ctTruthy c = true) := by
  obtain ⟨ha, hb⟩ := sendHeaders_get? cts (initHeaders api_key) i hd hget
  refine ⟨ha, hb.trans ?_⟩
  simp [initHeaders]

/-- C7, witness: on the two-request sequence [some "text/csv", none], the
second request still carries Authorization and a Content-Type that an
earlier call provided. -/
theorem C7_witness :
    (sendHeaders (initHeaders "masterKey".data)
        [some "text/csv".data, none]).get? 1 =
      some ⟨"Bearer masterKey".data, some "text/csv".data⟩ ∧
    ((⟨"Bearer masterKey".data, some "text/csv".data⟩ : HttpHeaders).authorization =
      "Bearer ".data ++ "masterKey".data ∧
    (((⟨"Bearer masterKey".data, some "text/csv".data⟩ :
        HttpHeaders).contentType.isSome = true) ↔
      ∃ j, j ≤ 1 ∧ ∃ c, [some "text/csv".data, none].get? j = some c ∧
        ctTruthy c = true)) :=
  ⟨by decide,
    C7_amended "masterKey".data [some "text/csv".data, none] 1
      ⟨"Bearer masterKey".data, some "text/csv".data⟩ (by decide)⟩

/-! ## Timestamp parsing: Index._iso_to_date_time (index.py 1087-1110)

The source is

    if not iso_date:
        return None
    if isinstance(iso_date, datetime):
        return iso_date
    try:
        return datetime.strptime(iso_date, "%Y-%m-%dT%H:%M:%S.%fZ")
    except ValueError:
        split = iso_date.split(".")
        reduce = len(split[1]) - 6
        reduced = f"(split[0]).(split[1][:-reduce])Z"
        return datetime.strptime(reduced, "%Y-%m-%dT%H:%M:%S.%fZ")

`datetime.strptime` with this fixed format is modelled character by
character after CPython's _strptime regex table: %Y is exactly four digits;
%m, %d, %H, %M, %S accept one or two digits constrained to 01-12 / 1-9,
01-31 / 1-9, 00-23 / 0-9, 00-59 / 0-9; %f accepts one to six digits,
greedily, right-padded with zeros to a microsecond count; the literal
separators must match, the whole string must be consumed, and the final
`datetime(...)` constructor additionally validates year ≥ 1 and the day
against the month length.  (Since every separator in the format is a
non-digit, taking the two-digit alternative first is equivalent to the
regex's ordered alternation with backtracking.) -/

/-- The result of a successful `datetime.strptime`. -/
structure PyDateTime where
  year : Nat
  month : Nat
  day : Nat
  hour : Nat
  minute : Nat
  second : Nat
  microsecond : Nat
  deriving DecidableEq, Repr

/-- Numeric value of a decimal digit character. -/
def digitVal (c : Char) : Nat := c.toNat - 48

/-- Fold a digit string into its decimal value (how `int(...)` reads the
matched digit groups). -/
def digitsToNat (ds : List Char) : Nat :=
  ds.foldl (fun a c => a * 10 + digitVal c) 0

/-- %Y: exactly four digits (CPython _strptime). -/
def parse4 : List Char → Option (Nat × List Char)
  | c1 :: c2 :: c3 :: c4 :: rest =>
    if c1.isDigit && c2.isDigit && c3.isDigit && c4.isDigit then
      some (digitVal c1 * 1000 + digitVal c2 * 100 + digitVal c3 * 10 + digitVal c4,
        rest)
    else none
  | _ => none

/-- A two-digits-preferred, one-digit-fallback field (the shape of the %m,
%d, %H, %M, %S regexes, whose separators are never digits). -/
def parse2or1 (valid2 valid1 : Nat → Bool) : List Char → Option (Nat × List Char)
  | c1 :: c2 :: rest =>
    if c1.isDigit && c2.isDigit && valid2 (digitVal c1 * 10 + digitVal c2) then
      some (digitVal c1 * 10 + digitVal c2, rest)
    else if c1.isDigit && valid1 (digitVal c1) then
      some (digitVal c1, c2 :: rest)
    else none
  | [c1] =>
    if c1.isDigit && valid1 (digitVal c1) then some (digitVal c1, []) else none
  | [] => none

/-- A literal character of the format string. -/
def parseLit (c : Char) : List Char → Option (List Char)
  | c1 :: rest => if c1 = c then some rest else none
  | [] => none

/-- Greedy digit prefix of length at most `k` (the regex [0-9] repeated one
to six times for %f). -/
def takeDigits : Nat → List Char → List Char
  | 0, _ => []
  | _ + 1, [] => []
  | k + 1, c :: cs => if c.isDigit then c :: takeDigits k cs else []

/-- %f: one to six digits, zero-padded on the right to six, read as a
microsecond count. -/
def parseFrac (cs : List Char) : Option (Nat × List Char) :=
  let ds := takeDigits 6 cs
  if ds.isEmpty then none
  else some (digitsToNat ds * 10 ^ (6 - ds.length), cs.drop ds.length)

/-- Two-digit month alternatives 0[1-9]|1[0-2]. -/
def validMonth2 (n : Nat) : Bool := 1 ≤ n && n ≤ 12

/-- One-digit month alternative [1-9]. -/
def validMonth1 (n : Nat) : Bool := 1 ≤ n && n ≤ 9

/-- Two-digit day alternatives 3[01]|[12]\d|0[1-9]. -/
def validDay2 (n : Nat) : Bool := 1 ≤ n && n ≤ 31

/-- One-digit day alternative [1-9]. -/
def validDay1 (n : Nat) : Bool := 1 ≤ n && n ≤ 9

/-- Two-digit hour alternatives 2[0-3]|[0-1]\d. -/
def validHour2 (n : Nat) : Bool := n ≤ 23

/-- One-digit hour alternative \d. -/
def validHour1 (n : Nat) : Bool := n ≤ 9

/-- Two-digit minute/second alternative [0-5]\d. -/
def validMinSec2 (n : Nat) : Bool := n ≤ 59

/-- One-digit minute/second alternative \d. -/
def validMinSec1 (n : Nat) : Bool := n ≤ 9

/-- Gregorian leap year, as `datetime` validates day-of-month. -/
def isLeapYear (y : Nat) : Bool :=
  y % 4 = 0 && (y % 100 ≠ 0 || y % 400 = 0)

/-- Length of a month, as the `datetime` constructor validates it. -/
def daysInMonth (y m : Nat) : Nat :=
  if m = 2 then (if isLeapYear y then 29 else 28)
  else if m = 4 || m = 6 || m = 9 || m = 11 then 30
  else 31

/-- The date part "%Y-%m-%d" of the format: year, month, day and the
remaining input. -/
def parseDate (cs : List Char) : Option ((Nat × Nat × Nat) × List Char) :=
  (parse4 cs).bind fun yr =>
  (parseLit '-' yr.2).bind fun r2 =>
  (parse2or1 validMonth2 validMonth1 r2).bind fun mor =>
  (parseLit '-' mor.2).bind fun r4 =>
  (parse2or1 validDay2 validDay1 r4).bind fun dr =>
  some ((yr.1, mor.1, dr.1), dr.2)

/-- The time part "%H:%M:%S" of the format: hour, minute, second and the
remaining input. -/
def parseTime (cs : List Char) : Option ((Nat × Nat × Nat) × List Char) :=
  (parse2or1 validHour2 validHour1 cs).bind fun hr =>
  (parseLit ':' hr.2).bind fun r8 =>
  (parse2or1 validMinSec2 validMinSec1 r8).bind fun mir =>
  (parseLit ':' mir.2).bind fun r10 =>
  (parse2or1 validMinSec2 validMinSec1 r10).bind fun ser =>
  some ((hr.1, mir.1, ser.1), ser.2)

/-- `datetime.strptime(s, "%Y-%m-%dT%H:%M:%S.%fZ")`: None models the raised
ValueError. -/
def strptimeIso (cs : List Char) : Option PyDateTime :=
  (parseDate cs).bind fun ymd =>
  (parseLit 'T' ymd.2).bind fun r6 =>
  (parseTime r6).bind fun hms =>
  (parseLit '.' hms.2).bind fun r12 =>
  (parseFrac r12).bind fun fr =>
  (parseLit 'Z' fr.2).bind fun r14 =>
  if r14 = [] ∧ 1 ≤ ymd.1.1 ∧ ymd.1.2.2 ≤ daysInMonth ymd.1.1 ymd.1.2.1 then
    some ⟨ymd.1.1, ymd.1.2.1, ymd.1.2.2, hms.1.1, hms.1.2.1, hms.1.2.2, fr.1⟩
  else none

/-- Python `str.split(".")` for the single-character separator. -/
def splitOnDot : List Char → List (List Char)
  | [] => [[]]
  | c :: cs =>
    if c = '.' then [] :: splitOnDot cs
    else
      match splitOnDot cs with
      | [] => [[c]]
      | r :: rs => (c :: r) :: rs

/-- Python `s[:j]` for a possibly negative stop index: a negative stop
counts from the end (clamped at zero). -/
def pyPrefixSlice (cs : List Char) (stop : Int) : List Char :=
  if stop < 0 then cs.take ((cs.length : Int) + stop).toNat
  else cs.take stop.toNat

/-- The Python errors `_iso_to_date_time` can raise. -/
inductive PyErr where
  | valueError
  | indexError
  deriving DecidableEq, Repr

/-- The argument of `_iso_to_date_time`: None, an already-parsed datetime,
or an ISO string. -/
inductive IsoInput where
  | pyNone
  | dt (d : PyDateTime)
  | str (s : List Char)
  deriving DecidableEq, Repr

/-- `Index._iso_to_date_time` (index.py 1087-1110).  `Except.error` models
an exception escaping the method: the fallback's `split[1]` raises
IndexError when the string contains no ".", and a second strptime failure
raises an uncaught ValueError. -/
def iso_to_date_time : IsoInput → Except PyErr (Option PyDateTime)
  | .pyNone => .ok none
  | .dt d => .ok (some d)
  | .str s =>
    if s.isEmpty then .ok none
    else
      match strptimeIso s with
      | some d => .ok (some d)
      | none =>
        match (splitOnDot s).get? 1 with
        | none => .error .indexError
        | some s1 =>
          let s0 := (splitOnDot s).headD []
          let reduce : Int := (s1.length : Int) - 6
          match strptimeIso (s0 ++ '.' :: (pyPrefixSlice s1 (-reduce) ++ ['Z'])) with
          | some d => .ok (some d)
          | none => .error .valueError

/-- A successful literal parse peels exactly that character. -/
theorem parseLit_eq_some (c : Char) (cs r : List Char) (h : parseLit c cs = some r) :
    cs = c :: r := by
  rcases cs with _ | ⟨c1, rest⟩
  · simp [parseLit] at h
  · simp only [parseLit] at h
    by_cases hc : c1 = c
    · rw [if_pos hc] at h
      cases h
      rw [hc]
    · rw [if_neg hc] at h
      cases h

/-- A literal parse fails when the literal does not occur in the input at
all. -/
theorem parseLit_none_of_not_mem (c : Char) (cs : List Char) (h : c ∉ cs) :
    parseLit c cs = none := by
  rcases cs with _ | ⟨c1, rest⟩
  · rfl
  · have hne : c1 ≠ c := by
      intro he
      exact h (by rw [← he]; exact List.mem_cons_self _ _)
    simp [parseLit, hne]

/-- The remainder of `parse4` is part of the input. -/
theorem parse4_mem (cs : List Char) (v : Nat) (r : List Char)
    (h : parse4 cs = some (v, r)) : ∀ x ∈ r, x ∈ cs := by
  rcases cs with _ | ⟨c1, _ | ⟨c2, _ | ⟨c3, _ | ⟨c4, rest⟩⟩⟩⟩ <;>
    simp only [parse4] at h
  iterate 4 exact absurd h (by simp)
  split at h
  · cases h
    intro x hx
    simp only [List.mem_cons]
    tauto
  · cases h

/-- The remainder of `parse2or1` is part of the input. -/
theorem parse2or1_mem (v2 v1 : Nat → Bool) (cs : List Char) (n : Nat)
    (r : List Char) (h : parse2or1 v2 v1 cs = some (n, r)) : ∀ x ∈ r, x ∈ cs := by
  rcases cs with _ | ⟨c1, _ | ⟨c2, rest⟩⟩ <;> simp only [parse2or1] at h
  · exact absurd h (by simp)
  · split at h
    · cases h
      intro x hx
      simp at hx
    · cases h
  · split at h
    · cases h
      intro x hx
      simp only [List.mem_cons]
      tauto
    · split at h
      · cases h
        intro x hx
        simp only [List.mem_cons] at hx ⊢
        tauto
      · cases h

/-- The remainder of `parseFrac` is part of the input. -/
theorem parseFrac_mem (cs : List Char) (n : Nat) (r : List Char)
    (h : parseFrac cs = some (n, r)) : ∀ x ∈ r, x ∈ cs := by
  simp only [parseFrac] at h
  split at h
  · cases h
  · cases h
    intro x hx
    exact List.drop_subset _ _ hx

/-- The remainder of `parseDate` is part of the input. -/
theorem parseDate_mem (cs : List Char) (ymd : Nat × Nat × Nat) (r : List Char)
    (h : parseDate cs = some (ymd, r)) : ∀ x ∈ r, x ∈ cs := by
  unfold parseDate at h
  rcases h1 : parse4 cs with _ | ⟨y, r1⟩
  · rw [h1] at h; cases h
  rw [h1] at h
  simp only [Option.some_bind] at h
  have m1 := parse4_mem cs y r1 h1
  rcases h2 : parseLit '-' r1 with _ | r2
  · rw [h2] at h; cases h
  rw [h2] at h
  simp only [Option.some_bind] at h
  have m2 : ∀ x ∈ r2, x ∈ cs := by
    have e := parseLit_eq_some _ _ _ h2
    intro x hx
    exact m1 x (by rw [e]; exact List.mem_cons_of_mem _ hx)
  rcases h3 : parse2or1 validMonth2 validMonth1 r2 with _ | ⟨mo, r3⟩
  · rw [h3] at h; cases h
  rw [h3] at h
  simp only [Option.some_bind] at h
  have m3 : ∀ x ∈ r3, x ∈ cs := fun x hx => m2 x (parse2or1_mem _ _ _ _ _ h3 x hx)
  rcases h4 : parseLit '-' r3 with _ | r4
  · rw [h4] at h; cases h
  rw [h4] at h
  simp only [Option.some_bind] at h
  have m4 : ∀ x ∈ r4, x ∈ cs := by
    have e := parseLit_eq_some _ _ _ h4
    intro x hx
    exact m3 x (by rw [e]; exact List.mem_cons_of_mem _ hx)
  rcases h5 : parse2or1 validDay2 validDay1 r4 with _ | ⟨d, r5⟩
  · rw [h5] at h; cases h
  rw [h5] at h
  simp only [Option.some_bind] at h
  cases h
  exact fun x hx => m4 x (parse2or1_mem _ _ _ _ _ h5 x hx)

/-- The remainder of `parseTime` is part of the input. -/
theorem parseTime_mem (cs : List Char) (hms : Nat × Nat × Nat) (r : List Char)
    (h : parseTime cs = some (hms, r)) : ∀ x ∈ r, x ∈ cs := by
  unfold parseTime at h
  rcases h1 : parse2or1 validHour2 validHour1 cs with _ | ⟨hh, r1⟩
  · rw [h1] at h; cases h
  rw [h1] at h
  simp only [Option.some_bind] at h
  have m1 : ∀ x ∈ r1, x ∈ cs := fun x hx => parse2or1_mem _ _ _ _ _ h1 x hx
  rcases h2 : parseLit ':' r1 with _ | r2
  · rw [h2] at h; cases h
  rw [h2] at h
  simp only [Option.some_bind] at h
  have m2 : ∀ x ∈ r2, x ∈ cs := by
    have e := parseLit_eq_some _ _ _ h2
    intro x hx
    exact m1 x (by rw [e]; exact List.mem_cons_of_mem _ hx)
  rcases h3 : parse2or1 validMinSec2 validMinSec1 r2 with _ | ⟨mi, r3⟩
  · rw [h3] at h; cases h
  rw [h3] at h
  simp only [Option.some_bind] at h
  have m3 : ∀ x ∈ r3, x ∈ cs := fun x hx => m2 x (parse2or1_mem _ _ _ _ _ h3 x hx)
  rcases h4 : parseLit ':' r3 with _ | r4
  · rw [h4] at h; cases h
  rw [h4] at h
  simp only [Option.some_bind] at h
  have m4 : ∀ x ∈ r4, x ∈ cs := by
    have e := parseLit_eq_some _ _ _ h4
    intro x hx
    exact m3 x (by rw [e]; exact List.mem_cons_of_mem _ hx)
  rcases h5 : parse2or1 validMinSec2 validMinSec1 r4 with _ | ⟨se, r5⟩
  · rw [h5] at h; cases h
  rw [h5] at h
  simp only [Option.some_bind] at h
  cases h
  exact fun x hx => m4 x (parse2or1_mem _ _ _ _ _ h5 x hx)

/-- A string without "." never parses under the format
"%Y-%m-%dT%H:%M:%S.%fZ": the mandatory literal "." cannot match. -/
theorem strptimeIso_none_of_noDot (cs : List Char) (hnd : '.' ∉ cs) :
    strptimeIso cs = none := by
  unfold strptimeIso
  rcases h1 : parseDate cs with _ | ⟨ymd, r1⟩
  · rfl
  simp only [Option.some_bind]
  have m1 := parseDate_mem cs ymd r1 h1
  rcases h2 : parseLit 'T' r1 with _ | r2
  · rfl
  simp only [Option.some_bind]
  have m2 : ∀ x ∈ r2, x ∈ cs := by
    have e := parseLit_eq_some _ _ _ h2
    intro x hx
    exact m1 x (by rw [e]; exact List.mem_cons_of_mem _ hx)
  rcases h3 : parseTime r2 with _ | ⟨hms, r3⟩
  · rfl
  simp only [Option.some_bind]
  have m3 : ∀ x ∈ r3, x ∈ cs := fun x hx => m2 x (parseTime_mem r2 hms r3 h3 x hx)
  have hdot : parseLit '.' r3 = none :=
    parseLit_none_of_not_mem '.' r3 (fun hm => hnd (m3 '.' hm))
  simp only [hdot, Option.none_bind]

/-- `split(".")` of a dot-free string is the one-element list holding the
whole string. -/
theorem splitOnDot_noDot (cs : List Char) (hnd : '.' ∉ cs) :
    splitOnDot cs = [cs] := by
  induction cs with
  | nil => rfl
  | cons c rest ih =>
    have hc : c ≠ '.' := by
      intro he
      exact hnd (by rw [← he]; exact List.mem_cons_self _ _)
    have hr : '.' ∉ rest := fun hm => hnd (List.mem_cons_of_mem _ hm)
    simp [splitOnDot, hc, ih hr]

/-- C10, confirmed.  For every non-empty string that contains no "." —
hence no fractional-second component, like "2021-01-01T00:00:00Z" —
`_iso_to_date_time` raises an uncaught IndexError instead of returning a
datetime or a typed client error: the primary strptime fails for lack of
the mandatory ".", and the fallback's `split[1]` (index.py 1108) indexes a
second component that does not exist. -/
theorem C10_no_fraction_raises_index_error (s : List Char) (hne : s ≠ [])
    (hnd : '.' ∉ s) :
    iso_to_date_time (.str s) = .error .indexError := by
  have hempty : s.isEmpty = false := by
    rcases s with _ | ⟨c, rest⟩
    · exact absurd rfl hne
    · rfl
  unfold iso_to_date_time
  simp only [hempty, Bool.false_eq_true, if_false,
    strptimeIso_none_of_noDot s hnd, splitOnDot_noDot s hnd, List.get?]

/-- C10, witness: the fraction-free timestamp "2021-01-01T00:00:00Z"
escapes with an IndexError. -/
theorem C10_witness :
    "2021-01-01T00:00:00Z".data ≠ [] ∧
    '.' ∉ "2021-01-01T00:00:00Z".data ∧
    iso_to_date_time (.str "2021-01-01T00:00:00Z".data) = .error .indexError :=
  ⟨by decide, by decide,
    C10_no_fraction_raises_index_error "2021-01-01T00:00:00Z".data
      (by decide) (by decide)⟩

/-! ### Zero-padded ISO rendering and its parse

The server sends timestamps of the shape "YYYY-MM-DDTHH:MM:SS.<frac>Z"
(index.py 1091-1096); `renderIso` renders one from its components, so that
claims about inputs with a given number of fractional digits can be stated
for all component values. -/

/-- Two-digit zero-padded decimal rendering. -/
def pad2 (n : Nat) : List Char := [hexDigitChar (n / 10 % 10), hexDigitChar (n % 10)]

/-- Four-digit zero-padded decimal rendering. -/
def pad4 (n : Nat) : List Char :=
  [hexDigitChar (n / 1000 % 10), hexDigitChar (n / 100 % 10),
    hexDigitChar (n / 10 % 10), hexDigitChar (n % 10)]

/-- The date-time part before the fractional dot. -/
def renderDatePart (y mo d h mi s : Nat) : List Char :=
  pad4 y ++ '-' :: (pad2 mo ++ '-' :: (pad2 d ++ 'T' ::
    (pad2 h ++ ':' :: (pad2 mi ++ ':' :: pad2 s))))

/-- A full ISO timestamp with the given fractional-second digits. -/
def renderIso (y mo d h mi s : Nat) (frac : List Char) : List Char :=
  renderDatePart y mo d h mi s ++ '.' :: (frac ++ ['Z'])

/-- `renderIso` in the right-nested shape the parser consumes. -/
theorem renderIso_nested (y mo d h mi s : Nat) (frac : List Char) :
    renderIso y mo d h mi s frac =
      pad4 y ++ '-' :: (pad2 mo ++ '-' :: (pad2 d ++ 'T' ::
        (pad2 h ++ ':' :: (pad2 mi ++ ':' :: (pad2 s ++ '.' :: (frac ++ ['Z'])))))) := by
  simp [renderIso, renderDatePart, List.append_assoc, List.cons_append]

/-- `hexDigitChar` of a value below ten is a decimal digit. -/
theorem hexDigitChar_isDigit (n : Nat) (h : n < 10) :
    (hexDigitChar n).isDigit = true := by
  interval_cases n <;> decide

/-- `digitVal` reads back what `hexDigitChar` rendered. -/
theorem digitVal_hexDigitChar (n : Nat) (h : n < 10) :
    digitVal (hexDigitChar n) = n := by
  interval_cases n <;> decide

/-- A digit character is never the dot. -/
theorem hexDigitChar_ne_dot (n : Nat) (h : n < 10) : hexDigitChar n ≠ '.' := by
  interval_cases n <;> decide

/-- The dot does not occur in a two-digit rendering. -/
theorem dot_not_mem_pad2 (n : Nat) : '.' ∉ pad2 n := by
  intro hm
  simp only [pad2, List.mem_cons, List.not_mem_nil, or_false] at hm
  rcases hm with h | h <;>
    exact hexDigitChar_ne_dot _ (Nat.mod_lt _ (by omega)) h.symm

/-- The dot does not occur in a four-digit rendering. -/
theorem dot_not_mem_pad4 (n : Nat) : '.' ∉ pad4 n := by
  intro hm
  simp only [pad4, List.mem_cons, List.not_mem_nil, or_false] at hm
  rcases hm with h | h | h | h <;>
    exact hexDigitChar_ne_dot _ (Nat.mod_lt _ (by omega)) h.symm

/-- The date-time part contains no dot, so `split(".")` severs the rendered
timestamp exactly at the fractional dot. -/
theorem dot_not_mem_renderDatePart (y mo d h mi s : Nat) :
    '.' ∉ renderDatePart y mo d h mi s := by
  intro hm
  unfold renderDatePart at hm
  rcases List.mem_append.mp hm with h1 | hm
  · exact dot_not_mem_pad4 y h1
  rcases List.mem_cons.mp hm with h1 | hm
  · exact absurd h1 (by decide)
  rcases List.mem_append.mp hm with h1 | hm
  · exact dot_not_mem_pad2 mo h1
  rcases List.mem_cons.mp hm with h1 | hm
  · exact absurd h1 (by decide)
  rcases List.mem_append.mp hm with h1 | hm
  · exact dot_not_mem_pad2 d h1
  rcases List.mem_cons.mp hm with h1 | hm
  · exact absurd h1 (by decide)
  rcases List.mem_append.mp hm with h1 | hm
  · exact dot_not_mem_pad2 h h1
  rcases List.mem_cons.mp hm with h1 | hm
  · exact absurd h1 (by decide)
  rcases List.mem_append.mp hm with h1 | hm
  · exact dot_not_mem_pad2 mi h1
  rcases List.mem_cons.mp hm with h1 | hm
  · exact absurd h1 (by decide)
  exact dot_not_mem_pad2 s hm

/-- %Y consumes exactly a four-digit rendering. -/
theorem parse4_pad4 (y : Nat) (hy : y < 10000) (r : List Char) :
    parse4 (pad4 y ++ r) = some (y, r) := by
  have e1 : y / 1000 % 10 < 10 := Nat.mod_lt _ (by omega)
  have e2 : y / 100 % 10 < 10 := Nat.mod_lt _ (by omega)
  have e3 : y / 10 % 10 < 10 := Nat.mod_lt _ (by omega)
  have e4 : y % 10 < 10 := Nat.mod_lt _ (by omega)
  simp only [pad4, List.cons_append, List.nil_append, parse4,
    hexDigitChar_isDigit _ e1, hexDigitChar_isDigit _ e2,
    hexDigitChar_isDigit _ e3, hexDigitChar_isDigit _ e4,
    digitVal_hexDigitChar _ e1, digitVal_hexDigitChar _ e2,
    digitVal_hexDigitChar _ e3, digitVal_hexDigitChar _ e4,
    Bool.and_self, if_true]
  have hv : y / 1000 % 10 * 1000 + y / 100 % 10 * 100 + y / 10 % 10 * 10 + y % 10 = y := by
    omega
  rw [hv]

/-- A two-digits-preferred field consumes exactly a two-digit rendering
whenever the rendered value is in the two-digit alternative set. -/
theorem parse2or1_pad2 (v2 v1 : Nat → Bool) (n : Nat) (hn : n ≤ 99)
    (h2 : v2 n = true) (r : List Char) :
    parse2or1 v2 v1 (pad2 n ++ r) = some (n, r) := by
  have e1 : n / 10 % 10 < 10 := Nat.mod_lt _ (by omega)
  have e2 : n % 10 < 10 := Nat.mod_lt _ (by omega)
  have hv : n / 10 % 10 * 10 + n % 10 = n := by omega
  simp only [pad2, List.cons_append, List.nil_append, parse2or1,
    hexDigitChar_isDigit _ e1, hexDigitChar_isDigit _ e2,
    digitVal_hexDigitChar _ e1, digitVal_hexDigitChar _ e2, hv, h2,
    Bool.and_self, if_true]

/-- The literal parser consumes a matching head character. -/
theorem parseLit_cons (c : Char) (r : List Char) : parseLit c (c :: r) = some r := by
  simp [parseLit]

/-- `parseDate` consumes exactly a rendered date with in-range components. -/
theorem parseDate_render (y mo d : Nat) (rest : List Char) (hy : y < 10000)
    (hmo1 : 1 ≤ mo) (hmo2 : mo ≤ 12) (hd1 : 1 ≤ d) (hd2 : d ≤ 31) :
    parseDate (pad4 y ++ '-' :: (pad2 mo ++ '-' :: (pad2 d ++ rest))) =
      some ((y, mo, d), rest) := by
  unfold parseDate
  rw [parse4_pad4 y hy]
  simp only [Option.some_bind]
  rw [parseLit_cons]
  simp only [Option.some_bind]
  rw [parse2or1_pad2 _ _ mo (by omega) (by simp only [validMonth2, Bool.and_eq_true, decide_eq_true_eq]; omega)]
  simp only [Option.some_bind]
  rw [parseLit_cons]
  simp only [Option.some_bind]
  rw [parse2or1_pad2 _ _ d (by omega) (by simp only [validDay2, Bool.and_eq_true, decide_eq_true_eq]; omega)]
  simp only [Option.some_bind]

/-- `parseTime` consumes exactly a rendered time with in-range components. -/
theorem parseTime_render (h mi s : Nat) (rest : List Char) (hh : h ≤ 23)
    (hmi : mi ≤ 59) (hs : s ≤ 59) :
    parseTime (pad2 h ++ ':' :: (pad2 mi ++ ':' :: (pad2 s ++ rest))) =
      some ((h, mi, s), rest) := by
  unfold parseTime
  rw [parse2or1_pad2 _ _ h (by omega) (by simp only [validHour2, decide_eq_true_eq]; omega)]
  simp only [Option.some_bind]
  rw [parseLit_cons]
  simp only [Option.some_bind]
  rw [parse2or1_pad2 _ _ mi (by omega) (by simp only [validMinSec2, decide_eq_true_eq]; omega)]
  simp only [Option.some_bind]
  rw [parseLit_cons]
  simp only [Option.some_bind]
  rw [parse2or1_pad2 _ _ s (by omega) (by simp only [validMinSec2, decide_eq_true_eq]; omega)]
  simp only [Option.some_bind]

/-- Greedy digit-taking consumes a digit prefix up to the cap. -/
theorem takeDigits_append_all (k : Nat) (f t : List Char)
    (hall : ∀ c ∈ f, c.isDigit = true) (hk : k ≤ f.length) :
    takeDigits k (f ++ t) = f.take k := by
  induction k generalizing f with
  | zero => simp [takeDigits]
  | succ k ih =>
    rcases f with _ | ⟨c, f1⟩
    · simp at hk
    · have hc : c.isDigit = true := hall c (List.mem_cons_self _ _)
      simp only [List.cons_append, takeDigits, hc, if_true, List.take_succ_cons,
        List.append_eq]
      rw [ih f1 (fun x hx => hall x (List.mem_cons_of_mem _ hx))
        (by simp at hk; omega)]

/-- %f on a six-digit fraction followed by "Z": consumes the six digits. -/
theorem parseFrac_six (f : List Char) (hall : ∀ c ∈ f, c.isDigit = true)
    (hlen : f.length = 6) :
    parseFrac (f ++ ['Z']) = some (digitsToNat f, ['Z']) := by
  unfold parseFrac
  have ht : takeDigits 6 (f ++ ['Z']) = f.take 6 :=
    takeDigits_append_all 6 f ['Z'] hall (by omega)
  have htake : f.take 6 = f := List.take_of_length_le (by omega)
  have hne : f.isEmpty = false := by
    rcases f with _ | ⟨c, f1⟩
    · simp at hlen
    · rfl
  simp only [ht, htake, hne, Bool.false_eq_true, if_false, hlen, Nat.sub_self,
    pow_zero, mul_one]
  rw [List.drop_append_of_le_length (by omega), List.drop_eq_nil_of_le (by omega)]
  rfl

/-- %f on a longer-than-six fraction followed by "Z": consumes only the
first six digits, leaving the seventh digit in front of the "Z". -/
theorem parseFrac_gt6 (f : List Char) (hall : ∀ c ∈ f, c.isDigit = true)
    (hlen : 6 < f.length) :
    parseFrac (f ++ ['Z']) = some (digitsToNat (f.take 6), f.drop 6 ++ ['Z']) := by
  unfold parseFrac
  have ht : takeDigits 6 (f ++ ['Z']) = f.take 6 :=
    takeDigits_append_all 6 f ['Z'] hall (by omega)
  have hlen6 : (f.take 6).length = 6 := by
    rw [List.length_take]
    omega
  have hne : (f.take 6).isEmpty = false := by
    rcases ht6 : f.take 6 with _ | ⟨c, f1⟩
    · rw [ht6] at hlen6
      simp at hlen6
    · rfl
  simp only [ht, hne, Bool.false_eq_true, if_false, hlen6, Nat.sub_self,
    pow_zero, mul_one]
  rw [List.drop_append_of_le_length (by omega)]

/-- `split(".")` severs at the first dot when the prefix is dot-free. -/
theorem splitOnDot_append (p rest : List Char) (hp : '.' ∉ p) :
    splitOnDot (p ++ '.' :: rest) = p :: splitOnDot rest := by
  induction p with
  | nil => simp [splitOnDot]
  | cons c p1 ih =>
    have hc : c ≠ '.' := by
      intro he
      exact hp (by rw [← he]; exact List.mem_cons_self _ _)
    have hp1 : '.' ∉ p1 := fun hm => hp (List.mem_cons_of_mem _ hm)
    simp only [List.cons_append, splitOnDot, hc, if_false, List.append_eq, ih hp1]

/-- Every month has at most 31 days. -/
theorem daysInMonth_le_31 (y m : Nat) : daysInMonth y m ≤ 31 := by
  unfold daysInMonth
  split
  · split <;> omega
  · split <;> omega

/-- A rendered six-digit timestamp parses to its components, the fraction
read as a microsecond count. -/
theorem strptimeIso_render6 (y mo d h mi s : Nat) (f : List Char)
    (hy1 : 1 ≤ y) (hy : y < 10000) (hmo1 : 1 ≤ mo) (hmo2 : mo ≤ 12)
    (hd1 : 1 ≤ d) (hd2 : d ≤ daysInMonth y mo) (hh : h ≤ 23) (hmi : mi ≤ 59)
    (hs : s ≤ 59) (hall : ∀ c ∈ f, c.isDigit = true) (hlen : f.length = 6) :
    strptimeIso (renderIso y mo d h mi s f) =
      some ⟨y, mo, d, h, mi, s, digitsToNat f⟩ := by
  have hd31 : d ≤ 31 := le_trans hd2 (daysInMonth_le_31 y mo)
  rw [renderIso_nested]
  unfold strptimeIso
  rw [parseDate_render y mo d _ hy hmo1 hmo2 hd1 hd31]
  simp only [Option.some_bind]
  rw [parseLit_cons]
  simp only [Option.some_bind]
  rw [parseTime_render h mi s _ hh hmi hs]
  simp only [Option.some_bind]
  rw [parseLit_cons]
  simp only [Option.some_bind]
  rw [parseFrac_six f hall hlen]
  simp only [Option.some_bind]
  rw [parseLit_cons]
  simp only [Option.some_bind]
  simp [hy1, hd2]

/-- A rendered timestamp with more than six fractional digits makes the
primary strptime fail: after six digits the format requires the literal "Z"
but finds the seventh digit. -/
theorem strptimeIso_render_gt6 (y mo d h mi s : Nat) (f : List Char)
    (hy : y < 10000) (hmo1 : 1 ≤ mo) (hmo2 : mo ≤ 12) (hd1 : 1 ≤ d)
    (hd31 : d ≤ 31) (hh : h ≤ 23) (hmi : mi ≤ 59) (hs : s ≤ 59)
    (hall : ∀ c ∈ f, c.isDigit = true) (hlen : 6 < f.length) :
    strptimeIso (renderIso y mo d h mi s f) = none := by
  rw [renderIso_nested]
  unfold strptimeIso
  rw [parseDate_render y mo d _ hy hmo1 hmo2 hd1 hd31]
  simp only [Option.some_bind]
  rw [parseLit_cons]
  simp only [Option.some_bind]
  rw [parseTime_render h mi s _ hh hmi hs]
  simp only [Option.some_bind]
  rw [parseLit_cons]
  simp only [Option.some_bind]
  rw [parseFrac_gt6 f hall hlen]
  simp only [Option.some_bind]
  have hz : parseLit 'Z' (f.drop 6 ++ ['Z']) = none := by
    have hdlt : 6 < f.length := hlen
    have hdig : (f[6]).isDigit = true :=
      hall _ (List.getElem_mem hdlt)
    have hne : f[6] ≠ 'Z' := by
      intro he
      rw [he] at hdig
      exact absurd hdig (by decide)
    rw [List.drop_eq_getElem_cons hdlt, List.cons_append]
    simp only [parseLit]
    rw [if_neg hne]
  rw [hz]
  rfl

/-- Rendered timestamps are never the empty (falsy) string. -/
theorem renderIso_isEmpty (y mo d h mi s : Nat) (f : List Char) :
    (renderIso y mo d h mi s f).isEmpty = false := by
  simp [renderIso, renderDatePart, pad4]

/-- C8, confirmed.  For every in-range timestamp with more than six
fractional-second digits, `_iso_to_date_time` never raises: the primary
strptime fails (extra precision), the caught fallback truncates the
fractional part to its first six digits (index.py 1107-1110), and the
result equals what the same timestamp with only those six digits parses to
— the same instant down to the microsecond. -/
theorem C8_extra_fraction_digits_truncated (y mo d h mi s : Nat) (f : List Char)
    (hy1 : 1 ≤ y) (hy : y < 10000) (hmo1 : 1 ≤ mo) (hmo2 : mo ≤ 12)
    (hd1 : 1 ≤ d) (hd2 : d ≤ daysInMonth y mo) (hh : h ≤ 23) (hmi : mi ≤ 59)
    (hs : s ≤ 59) (hall : ∀ c ∈ f, c.isDigit = true) (hlen : 6 < f.length) :
    iso_to_date_time (.str (renderIso y mo d h mi s f)) =
      .ok (some ⟨y, mo, d, h, mi, s, digitsToNat (f.take 6)⟩) ∧
    iso_to_date_time (.str (renderIso y mo d h mi s (f.take 6))) =
      .ok (some ⟨y, mo, d, h, mi, s, digitsToNat (f.take 6)⟩) := by
  have hd31 : d ≤ 31 := le_trans hd2 (daysInMonth_le_31 y mo)
  have hall6 : ∀ c ∈ f.take 6, c.isDigit = true :=
    fun c hc => hall c (List.mem_of_mem_take hc)
  have hlen6 : (f.take 6).length = 6 := by
    rw [List.length_take]
    omega
  have hstrp6 := strptimeIso_render6 y mo d h mi s (f.take 6) hy1 hy hmo1 hmo2
    hd1 hd2 hh hmi hs hall6 hlen6
  constructor
  · have hstrpN := strptimeIso_render_gt6 y mo d h mi s f hy hmo1 hmo2 hd1 hd31
      hh hmi hs hall hlen
    have hfz : '.' ∉ (f ++ ['Z']) := by
      intro hm
      rcases List.mem_append.mp hm with h1 | h1
      · exact absurd (hall '.' h1) (by decide)
      · exact absurd h1 (by decide)
    have hsplit : splitOnDot (renderIso y mo d h mi s f) =
        [renderDatePart y mo d h mi s, f ++ ['Z']] := by
      rw [renderIso, splitOnDot_append _ _ (dot_not_mem_renderDatePart y mo d h mi s),
        splitOnDot_noDot _ hfz]
    have hslice : pyPrefixSlice (f ++ ['Z'])
        (-((((f ++ ['Z']).length : Nat) : Int) - 6)) = f.take 6 := by
      unfold pyPrefixSlice
      have hl : (f ++ ['Z']).length = f.length + 1 := by simp
      rw [hl, if_pos (by omega)]
      have hidx : ((f.length + 1 : Nat) : Int) + -(((f.length + 1 : Nat) : Int) - 6) =
          (6 : Int) := by ring
      rw [hidx]
      rw [show ((6 : Int).toNat) = 6 from rfl,
        List.take_append_of_le_length (by omega)]
    unfold iso_to_date_time
    simp only [renderIso_isEmpty, Bool.false_eq_true, if_false, hstrpN, hsplit,
      List.get?, List.headD, hslice]
    rw [show renderDatePart y mo d h mi s ++ '.' :: (f.take 6 ++ ['Z']) =
      renderIso y mo d h mi s (f.take 6) from rfl, hstrp6]
  · unfold iso_to_date_time
    simp only [renderIso_isEmpty, Bool.false_eq_true, if_false, hstrp6]

/-- C8, witness: "2021-01-01T00:00:00.123456789Z" (nine fractional digits)
parses without error to microsecond 123456, the same instant as the
six-digit "2021-01-01T00:00:00.123456Z". -/
theorem C8_witness :
    (∀ c ∈ "123456789".data, c.isDigit = true) ∧
    (6 < "123456789".data.length) ∧
    (iso_to_date_time (.str (renderIso 2021 1 1 0 0 0 "123456789".data)) =
      .ok (some ⟨2021, 1, 1, 0, 0, 0, digitsToNat ("123456789".data.take 6)⟩) ∧
    iso_to_date_time (.str (renderIso 2021 1 1 0 0 0 ("123456789".data.take 6))) =
      .ok (some ⟨2021, 1, 1, 0, 0, 0, digitsToNat ("123456789".data.take 6)⟩)) :=
  ⟨by decide, by decide,
    C8_extra_fraction_digits_truncated 2021 1 1 0 0 0 "123456789".data
      (by omega) (by omega) (by omega) (by omega) (by omega) (by decide)
      (by omega) (by omega) (by omega) (by decide) (by decide)⟩

end Ameilisearch
